import Mathlib

/-!
Verification of the pagination core of `src/facebook/graphy.py`.

We shallowly embed the Python code: Python values become the mutual
inductive `PyVal`/`PyList`/`PyFields`, Python dicts become ordered
association lists without duplicate keys (matching CPython's
one-slot-per-key semantics), the `requests` library becomes an oracle
list of scripted HTTP responses, and the generator `paginate` becomes a
recursive function producing the list of yielded page envelopes together
with a run outcome and the number of HTTP requests issued.

Object identity matters for two claims (the caller's parameter dict
versus the engine's private copy, and the envelopes' aliasing of the
live `params` object), so those two dict objects live in an explicit
two-cell heap: envelopes store a reference into the heap, not a value,
and each yielded envelope is recorded together with the heap as it stood
at yield time.
-/

deriving instance DecidableEq for Except

mutual
/-- Embedding of the Python values that flow through `graphy.py`:
JSON-decoded response bodies, parameter values and cursors. -/
inductive PyVal where
  | none
  | bool (b : Bool)
  | int (n : Int)
  | str (s : String)
  | list (xs : PyList)
  | dict (entries : PyFields)
deriving Repr, DecidableEq

/-- A Python list of embedded values. -/
inductive PyList where
  | nil
  | cons (hd : PyVal) (tl : PyList)
deriving Repr, DecidableEq

/-- A Python dict with string keys: an ordered association list without
duplicate keys. -/
inductive PyFields where
  | nil
  | cons (k : String) (v : PyVal) (tl : PyFields)
deriving Repr, DecidableEq
end

/-- Build a `PyList` from a Lean list (literal notation helper). -/
def pyListOf : List PyVal → PyList
  | [] => .nil
  | x :: xs => .cons x (pyListOf xs)

/-- Build a `PyFields` from a Lean association list (literal helper). -/
def fieldsOf : List (String × PyVal) → PyFields
  | [] => .nil
  | (k, v) :: rest => .cons k v (fieldsOf rest)

/-- Build a Python dict value from a Lean association list. -/
def pyDict (l : List (String × PyVal)) : PyVal := .dict (fieldsOf l)

/-- `True` exactly for the empty Python list. -/
def PyList.isNil : PyList → Bool
  | .nil => true
  | .cons _ _ => false

/-- `True` exactly for the empty Python dict. -/
def PyFields.isNil : PyFields → Bool
  | .nil => true
  | .cons _ _ _ => false

/-- Python `d.get(k)` lookup on a dict. -/
def dictGet : PyFields → String → Option PyVal
  | .nil, _ => Option.none
  | .cons k' v rest, k => if k' = k then some v else dictGet rest k

/-- Python `d[k] = v`: overwrite in place when the key exists (keeping
its insertion position), append otherwise. -/
def dictSet : PyFields → String → PyVal → PyFields
  | .nil, k, v => .cons k v .nil
  | .cons k' v' rest, k, v =>
      if k' = k then .cons k v rest else .cons k' v' (dictSet rest k v)

/-- Python truthiness for the embedded values (`if data and cursor`). -/
def pyTruthy : PyVal → Bool
  | .none => false
  | .bool b => b
  | .int n => n != 0
  | .str s => s != ""
  | .list xs => !xs.isNil
  | .dict l => !l.isNil

/-- Python `v.get(k, default)`: an `AttributeError` unless the receiver
is a dict. -/
def pyGet (v : PyVal) (k : String) (default : PyVal) : Except String PyVal :=
  match v with
  | .dict l => .ok ((dictGet l k).getD default)
  | _ => .error "AttributeError"

/-- Python `s.split(sep, 1)` for a one-character separator, on the
character list: `Option.none` when the separator does not occur. -/
def splitOnceAux (c : Char) : List Char → Option (List Char × List Char)
  | [] => Option.none
  | x :: xs =>
      if x = c then some ([], xs)
      else
        match splitOnceAux c xs with
        | Option.none => Option.none
        | some (a, b) => some (x :: a, b)

/-- Python `s.split(sep, 1)`: the part before the first separator, and
the remainder when the separator occurs. -/
def splitOnce (s : String) (c : Char) : String × Option String :=
  match splitOnceAux c s.toList with
  | Option.none => (s, Option.none)
  | some (a, b) => (⟨a⟩, some ⟨b⟩)

/-- Python full `s.split(sep)` on a character list (`"" ↦ [""]`,
adjacent separators yield empty components). -/
def splitAllAux (c : Char) : List Char → List (List Char)
  | [] => [[]]
  | x :: xs =>
      let r := splitAllAux c xs
      if x = c then [] :: r
      else
        match r with
        | [] => [[x]]
        | h :: t => (x :: h) :: t

/-- Python full `s.split(sep)` for a one-character separator. -/
def splitAll (s : String) (c : Char) : List String :=
  (splitAllAux c s.toList).map (fun l => ⟨l⟩)

/-- Lookup in the string-valued query dict built by `extract_query`. -/
def qGet : List (String × String) → String → Option String
  | [], _ => Option.none
  | (k', v) :: rest, k => if k' = k then some v else qGet rest k

/-- Assignment in the string-valued query dict (overwrite in place). -/
def qSet : List (String × String) → String → String → List (String × String)
  | [], k, v => [(k, v)]
  | (k', v') :: rest, k, v =>
      if k' = k then (k, v) :: rest else (k', v') :: qSet rest k v

/-- One element of the generator in `dict(p.split('=', 1) for p in ...)`:
a component with no `'='` makes the `dict` constructor raise
`ValueError`. -/
def pairOf (p : String) : Except String (String × String) :=
  match splitOnce p '=' with
  | (k, some v) => .ok (k, v)
  | (_, Option.none) => .error "ValueError"

/-- The pair sequence consumed by `dict(...)`, failing at the first bad
component exactly as CPython's `dict` constructor does. -/
def pairsOf : List String → Except String (List (String × String))
  | [] => .ok []
  | p :: rest => do
      let kv ← pairOf p
      let r ← pairsOf rest
      pure (kv :: r)

/-- `extract_query` (graphy.py:125-129): split on the first `'?'`; when
a query part exists, split it on `'&'`, each component on the first
`'='`, and build a dict (last occurrence of a duplicate key wins). -/
def extract_query (s : String) : Except String (List (String × String)) :=
  match splitOnce s '?' with
  | (_, Option.none) => .ok []
  | (_, some q) => do
      let ps ← pairsOf (splitAll q '&')
      pure (ps.foldl (fun d kv => qSet d kv.1 kv.2) [])

/-- `extract_until` (graphy.py:122-123):
`extract_query(c.get('paging', {}).get('next', '')).get('until')`. -/
def extract_until (c : PyVal) : Except String PyVal := do
  let p ← pyGet c "paging" (.dict .nil)
  let n ← pyGet p "next" (.str "")
  match n with
  | .str s => do
      let q ← extract_query s
      pure (((qGet q "until").map PyVal.str).getD .none)
  | _ => .error "AttributeError"

/-- `extract_after` (graphy.py:119-120):
`c.get('paging', {}).get('cursors', {}).get('after')`. -/
def extract_after (c : PyVal) : Except String PyVal := do
  let p ← pyGet c "paging" (.dict .nil)
  let cu ← pyGet p "cursors" (.dict .nil)
  pyGet cu "after" .none

/-- `geometric_ramp_up` (graphy.py:143-144): the closure
`lambda x: min(ceiling, x * multiplier)` over Python's unbounded ints. -/
def geometric_ramp_up (multiplier ceiling : Int) : Int → Int :=
  fun x => min ceiling (x * multiplier)

/-- `n`-fold application of the ramp-up policy to a starting limit. -/
def rampIter (multiplier ceiling : Int) : Nat → Int → Int
  | 0, x => x
  | n + 1, x => rampIter multiplier ceiling n (geometric_ramp_up multiplier ceiling x)

/-- A scripted HTTP response: status code, the JSON-decoded body when
decoding succeeds (`Option.none` models a decode failure), and the raw
response text. -/
structure HttpResp where
  status : Int
  jsonBody : Option PyVal
  text : String
deriving Repr, DecidableEq

/-- `parse_response` (graphy.py:146-150): return `r.json()`, or
`dict(error=r.text)` when decoding raises. -/
def parse_response (r : HttpResp) : PyVal :=
  match r.jsonBody with
  | some j => j
  | Option.none => .dict (.cons "error" (.str r.text) .nil)

/-- A reference to one of the two parameter-dict objects alive during a
pagination run: the caller-supplied `parameters` and the engine's
private copy `params` created by `dict(parameters)`. -/
inductive Ref where
  | caller
  | engine
deriving Repr, DecidableEq

/-- The heap of the two parameter-dict objects. -/
structure Heap where
  callerParams : PyFields
  engineParams : PyFields
deriving Repr, DecidableEq

/-- Dereference a parameter-dict object. -/
def Heap.read (h : Heap) : Ref → PyFields
  | .caller => h.callerParams
  | .engine => h.engineParams

/-- Assign a parameter-dict object. -/
def Heap.write (h : Heap) : Ref → PyFields → Heap
  | .caller, d => { h with callerParams := d }
  | .engine, d => { h with engineParams := d }

/-- The page envelope built at graphy.py:107. Its `parameters` member is
the `params` object itself — a reference, as in the source — not a
copied value. -/
structure Envelope where
  content : PyVal
  status : Int
  endpoint : String
  parameters : Ref
deriving Repr, DecidableEq

/-- How a pagination run ends: `done` for a normal `break`, `raised`
for a propagated exception, `starved` when the engine attempts a
request beyond the scripted responses (the run is still in flight). -/
inductive Outcome where
  | done
  | raised (msg : String)
  | starved
deriving Repr, DecidableEq

/-- The observable result of a pagination run: the yielded envelopes
(each with the heap as it stood at its yield), the number of HTTP
requests issued, the outcome, whether a `popleft` on an empty deque ever
happened, and the final heap and credential queue. -/
structure RunResult where
  pages : List (Envelope × Heap)
  requests : Nat
  outcome : Outcome
  popFailed : Bool
  finalHeap : Heap
  finalQueue : List PyVal
deriving Repr, DecidableEq

/-- The continuation test of graphy.py:111:
`data and cursor and cursor != params.get(cursor_key)`. -/
def continueCond (cursor_key : String) (params : PyFields) (cursor data : PyVal) : Bool :=
  pyTruthy data && pyTruthy cursor && !(cursor == (dictGet params cursor_key).getD .none)

/-- The `while True` loop of `paginate` (graphy.py:102-117), driven by
the scripted responses. Each iteration: pop a credential (IndexError on
an empty deque), write it under `access_token`, issue the request
(starving when the script is exhausted), parse the response, yield the
envelope, extract the cursor and read `data` (each may raise after the
yield), then either re-enqueue the credential, advance the cursor
parameter and ramp the limit, or break. -/
def paginateAux (endpoint cursor_key : String)
    (cursor_extractor : PyVal → Except String PyVal)
    (ramp_up : PyVal → PyVal) :
    List HttpResp → List PyVal → Heap → RunResult
  | responses, queue, h =>
    match queue with
    | [] =>
        { pages := [], requests := 0,
          outcome := .raised "IndexError: pop from an empty deque",
          popFailed := true, finalHeap := h, finalQueue := [] }
    | tok :: restq =>
      let h1 := h.write .engine (dictSet (h.read .engine) "access_token" tok)
      match responses with
      | [] =>
          { pages := [], requests := 1, outcome := .starved,
            popFailed := false, finalHeap := h1, finalQueue := tok :: restq }
      | r :: rs =>
        let content := parse_response r
        let env : Envelope := ⟨content, r.status, endpoint, .engine⟩
        match cursor_extractor content with
        | .error msg =>
            { pages := [(env, h1)], requests := 1, outcome := .raised msg,
              popFailed := false, finalHeap := h1, finalQueue := restq }
        | .ok cursor =>
          match pyGet content "data" (.list .nil) with
          | .error msg =>
              { pages := [(env, h1)], requests := 1, outcome := .raised msg,
                popFailed := false, finalHeap := h1, finalQueue := restq }
          | .ok data =>
            if continueCond cursor_key (h1.read .engine) cursor data then
              let params1 := h1.read .engine
              let queue2 := restq ++ [(dictGet params1 "access_token").getD .none]
              let params2 := dictSet params1 cursor_key cursor
              let params3 :=
                match dictGet params2 "limit" with
                | some lv => dictSet params2 "limit" (ramp_up lv)
                | Option.none => params2
              let h2 := h1.write .engine params3
              let res := paginateAux endpoint cursor_key cursor_extractor ramp_up rs queue2 h2
              { pages := (env, h1) :: res.pages, requests := res.requests + 1,
                outcome := res.outcome, popFailed := res.popFailed,
                finalHeap := res.finalHeap, finalQueue := res.finalQueue }
            else
              { pages := [(env, h1)], requests := 1, outcome := .done,
                popFailed := false, finalHeap := h1, finalQueue := restq }

/-- `paginate` (graphy.py:98-117): build the private copy
`params = dict(parameters)` and the credential deque, then run the
loop. The heap starts with the caller's dict and its fresh copy. -/
def paginate (endpoint : String) (parameters : PyFields) (tokens : List PyVal)
    (cursor_key : String) (cursor_extractor : PyVal → Except String PyVal)
    (ramp_up : PyVal → PyVal) (responses : List HttpResp) : RunResult :=
  paginateAux endpoint cursor_key cursor_extractor ramp_up responses tokens
    (Heap.mk parameters parameters)

/-- `paginate_cursors` (graphy.py:92-93). -/
def paginate_cursors (endpoint : String) (parameters : PyFields) (tokens : List PyVal)
    (ramp_up : PyVal → PyVal) (responses : List HttpResp) : RunResult :=
  paginate endpoint parameters tokens "after" extract_after ramp_up responses

/-- `paginate_dates` (graphy.py:95-96). -/
def paginate_dates (endpoint : String) (parameters : PyFields) (tokens : List PyVal)
    (ramp_up : PyVal → PyVal) (responses : List HttpResp) : RunResult :=
  paginate endpoint parameters tokens "until" extract_until ramp_up responses

/-! ### Concrete fixtures used by the closed statements -/

/-- A response body with one datum and an `after` cursor `c`. -/
def sampleBody (c : String) : PyVal :=
  pyDict [("data", .list (pyListOf [.int 1])),
          ("paging", pyDict [("cursors", pyDict [("after", .str c)])])]

/-- A final response body with an empty `data` list. -/
def lastBody : PyVal := pyDict [("data", .list .nil)]

/-- A scripted three-page exchange: two pages with fresh cursors, then
an empty page. -/
def twoTokenScript : List HttpResp :=
  [⟨200, some (sampleBody "c1"), "page1"⟩,
   ⟨200, some (sampleBody "c2"), "page2"⟩,
   ⟨200, some lastBody, "page3"⟩]

/-- The caller-supplied parameter dict for the fixture run. -/
def startParams : PyFields := fieldsOf [("limit", .int 25)]

/-- The fixture run: cursor-style pagination with credentials `A, B`
over the three-page script, with the (identity) default ramp-up. -/
def twoTokenRun : RunResult :=
  paginate_cursors "https://graph.facebook.com/v2.2/42/likes" startParams
    [.str "A", .str "B"] (fun v => v) twoTokenScript

/-- The `i`-th yielded page of a run (0-based), with a junk default. -/
def pageAt (res : RunResult) (i : Nat) : Envelope × Heap :=
  res.pages.getD i (⟨.none, 0, "", .engine⟩, ⟨.nil, .nil⟩)

/-! ### Helper lemmas -/

theorem dictGet_dictSet_self : ∀ (d : PyFields) (k : String) (v : PyVal),
    dictGet (dictSet d k v) k = some v
  | .nil, k, v => by simp [dictSet, dictGet]
  | .cons k' v' rest, k, v => by
      by_cases hk : k' = k
      · simp [dictSet, dictGet, hk]
      · simp [dictSet, dictGet, hk, dictGet_dictSet_self rest k v]

@[simp] theorem Heap.read_write_engine (h : Heap) (d : PyFields) :
    (h.write .engine d).read .engine = d := rfl

@[simp] theorem Heap.write_engine_callerParams (h : Heap) (d : PyFields) :
    (h.write .engine d).callerParams = h.callerParams := rfl

theorem rampIter_bounds (mult ceil : Int) (h2 : 2 ≤ mult) :
    ∀ (n : Nat) (x : Int), 0 < x → x ≤ ceil →
      0 < rampIter mult ceil n x ∧ rampIter mult ceil n x ≤ ceil ∧
        min ceil (x + (n : Int)) ≤ rampIter mult ceil n x := by
  intro n
  induction n with
  | zero =>
      intro x hx hc
      refine ⟨hx, hc, ?_⟩
      simp only [rampIter, Nat.cast_zero, add_zero]
      exact min_le_right _ _
  | succ n ih =>
      intro x hx hc
      have hceil : 0 < ceil := lt_of_lt_of_le hx hc
      have hmul : x * 2 ≤ x * mult := mul_le_mul_of_nonneg_left h2 (le_of_lt hx)
      have hx1 : x + 1 ≤ x * mult := by linarith
      have hramp : geometric_ramp_up mult ceil x = min ceil (x * mult) := rfl
      have h1 : 0 < geometric_ramp_up mult ceil x := by
        rw [hramp]
        exact lt_min hceil (lt_of_lt_of_le (by linarith) hx1)
      have hle : geometric_ramp_up mult ceil x ≤ ceil := by
        rw [hramp]; exact min_le_left _ _
      obtain ⟨p1, p2, p3⟩ := ih (geometric_ramp_up mult ceil x) h1 hle
      have hstep : rampIter mult ceil (n + 1) x
          = rampIter mult ceil n (geometric_ramp_up mult ceil x) := rfl
      refine ⟨by rw [hstep]; exact p1, by rw [hstep]; exact p2, ?_⟩
      rw [hstep]
      have hg : min ceil (x + 1) ≤ geometric_ramp_up mult ceil x := by
        rw [hramp]; exact min_le_min (le_refl ceil) hx1
      have key : min ceil (x + ((n : Int) + 1))
          ≤ min ceil (geometric_ramp_up mult ceil x + (n : Int)) := by
        have hn : (0 : Int) ≤ (n : Int) := Int.natCast_nonneg n
        rcases le_total ceil (x + 1) with hcx | hcx
        · have hgc : geometric_ramp_up mult ceil x = ceil :=
            le_antisymm hle (by rw [min_eq_left hcx] at hg; exact hg)
          rw [hgc]
          exact le_trans (min_le_left _ _) (le_min (le_refl _) (by linarith))
        · rw [min_eq_right hcx] at hg
          exact min_le_min (le_refl ceil) (by linarith)
      calc min ceil (x + ((n : Nat) + 1 : Nat))
          = min ceil (x + ((n : Int) + 1)) := by push_cast; ring_nf
        _ ≤ min ceil (geometric_ramp_up mult ceil x + (n : Int)) := key
        _ ≤ rampIter mult ceil n (geometric_ramp_up mult ceil x) := p3

/-! ### C4 — the geometric ramp-up policy -/

/-- C4: `geometric_ramp_up` computes `min(ceiling, current * multiplier)`
for every integer; `ramp(25)` with multiplier 2 and ceiling 3000 is 50;
and for `2 ≤ multiplier`, `0 < start ≤ ceiling`, every number of
repeated applications stays at most the ceiling and, from some point on,
equals the ceiling. -/
theorem geometric_ramp_up_spec (mult ceil x : Int)
    (h2 : 2 ≤ mult) (hx : 0 < x) (hc : x ≤ ceil) :
    (∀ y : Int, geometric_ramp_up mult ceil y = min ceil (y * mult))
    ∧ geometric_ramp_up 2 3000 25 = 50
    ∧ (∀ n : Nat, rampIter mult ceil n x ≤ ceil)
    ∧ (∃ N : Nat, ∀ n : Nat, N ≤ n → rampIter mult ceil n x = ceil) := by
  refine ⟨fun y => rfl, by decide, ?_, ?_⟩
  · intro n
    exact (rampIter_bounds mult ceil h2 n x hx hc).2.1
  · refine ⟨(ceil - x).toNat, fun n hn => ?_⟩
    obtain ⟨p1, p2, p3⟩ := rampIter_bounds mult ceil h2 n x hx hc
    have hcx : ceil - x ≤ (n : Int) := Int.toNat_le.mp hn
    have hmin : min ceil (x + (n : Int)) = ceil := min_eq_left (by linarith)
    rw [hmin] at p3
    exact le_antisymm p2 p3

/-- Witness for C4 at multiplier 2, ceiling 3000, start 25. -/
theorem geometric_ramp_up_spec_witness :
    (∀ y : Int, geometric_ramp_up 2 3000 y = min 3000 (y * 2))
    ∧ geometric_ramp_up 2 3000 25 = 50
    ∧ (∀ n : Nat, rampIter 2 3000 n 25 ≤ 3000)
    ∧ (∃ N : Nat, ∀ n : Nat, N ≤ n → rampIter 2 3000 n 25 = 3000) :=
  geometric_ramp_up_spec 2 3000 25 (by norm_num) (by norm_num) (by norm_num)

/-! ### C5 — the date-style extractor and query parsing -/

/-- C5: `extract_until` returns `"123"` on the documented example, none
on an empty `next` URL or absent `paging`; query parsing splits on the
first `?`, then `&`, then the first `=` of each pair; the last duplicate
key wins; no URL-decoding is performed. -/
theorem extract_until_spec :
    extract_until (pyDict [("paging",
        pyDict [("next", .str "https://x?until=123&limit=25")])]) = .ok (.str "123")
    ∧ extract_until (pyDict [("paging", pyDict [("next", .str "")])]) = .ok .none
    ∧ extract_until (pyDict []) = .ok .none
    ∧ extract_until (pyDict [("paging",
        pyDict [("next", .str "https://x?until=1&until=2")])]) = .ok (.str "2")
    ∧ extract_until (pyDict [("paging",
        pyDict [("next", .str "https://x?until=a%2Bb")])]) = .ok (.str "a%2Bb")
    ∧ extract_query "a?b=1?c=2" = .ok [("b", "1?c=2")] := by
  decide

/-! ### C6 — the cursor-style extractor -/

/-- C6: `extract_after` reads `content.paging.cursors.after` when every
level is present, and returns none when any of the three levels is
absent; in particular `"X"` on the documented example and none on the
empty dict. -/
theorem extract_after_spec :
    extract_after (pyDict [("paging",
        pyDict [("cursors", pyDict [("after", .str "X")])])]) = .ok (.str "X")
    ∧ extract_after (pyDict []) = .ok .none
    ∧ (∀ l : PyFields, dictGet l "paging" = Option.none →
        extract_after (.dict l) = .ok .none)
    ∧ (∀ l m : PyFields, dictGet l "paging" = some (.dict m) →
        dictGet m "cursors" = Option.none → extract_after (.dict l) = .ok .none)
    ∧ (∀ l m k : PyFields, dictGet l "paging" = some (.dict m) →
        dictGet m "cursors" = some (.dict k) → dictGet k "after" = Option.none →
        extract_after (.dict l) = .ok .none) := by
  refine ⟨by decide, by decide, ?_, ?_, ?_⟩
  · intro l hl
    simp [extract_after, pyGet, hl, dictGet, Bind.bind, Except.bind]
  · intro l m hl hm
    simp [extract_after, pyGet, hl, hm, dictGet, Bind.bind, Except.bind]
  · intro l m k hl hm hk
    simp [extract_after, pyGet, hl, hm, hk, dictGet, Bind.bind, Except.bind]

/-- Witness for C6 on concrete one-level dicts with each level absent. -/
theorem extract_after_spec_witness :
    extract_after (.dict (fieldsOf [("misc", .int 1)])) = .ok .none
    ∧ extract_after (.dict (fieldsOf [("paging", pyDict [("misc", .int 1)])])) = .ok .none
    ∧ extract_after (.dict (fieldsOf [("paging",
        pyDict [("cursors", pyDict [("misc", .int 1)])])])) = .ok .none :=
  ⟨extract_after_spec.2.2.1 _ (by decide),
   extract_after_spec.2.2.2.1 _ (fieldsOf [("misc", .int 1)]) (by decide) (by decide),
   extract_after_spec.2.2.2.2 _ (fieldsOf [("cursors", pyDict [("misc", .int 1)])])
     (fieldsOf [("misc", .int 1)]) (by decide) (by decide) (by decide)⟩

/-! ### C10 — the query parser is not total -/

theorem pairsOf_error_of_mem {l : List String} {c : String}
    (hc : c ∈ l) (he : pairOf c = .error "ValueError") :
    ∃ e, pairsOf l = .error e := by
  induction l with
  | nil => cases hc
  | cons a t ih =>
      rcases List.mem_cons.mp hc with rfl | hc'
      · exact ⟨"ValueError", by simp [pairsOf, he, Bind.bind, Except.bind]⟩
      · rcases ha : pairOf a with e | kv
        · exact ⟨e, by simp [pairsOf, ha, Bind.bind, Except.bind]⟩
        · obtain ⟨e, het⟩ := ih hc'
          exact ⟨e, by simp [pairsOf, ha, het, Bind.bind, Except.bind]⟩

/-- C10: the date-style extractor is partial: when `content.paging.next`
has a query part and some `&`-component of it has no `=`, the `dict`
construction in `extract_query` raises `ValueError` instead of returning
a mapping, so `extract_until` fails on such a response — concretely on
`paging.next = "https://x?flag"`. -/
theorem extract_until_raises_on_malformed_query :
    (∀ s q comp, (splitOnce s '?').2 = some q → comp ∈ splitAll q '&' →
        (splitOnce comp '=').2 = Option.none → ∃ e, extract_query s = .error e)
    ∧ (∀ (l m : PyFields) (s : String) (e : String),
        dictGet l "paging" = some (.dict m) → dictGet m "next" = some (.str s) →
        extract_query s = .error e → extract_until (.dict l) = .error e)
    ∧ extract_until (pyDict [("paging",
        pyDict [("next", .str "https://x?flag")])]) = .error "ValueError" := by
  refine ⟨?_, ?_, by decide⟩
  · intro s q comp h1 h2 h3
    have hs : splitOnce s '?' = ((splitOnce s '?').1, some q) :=
      Prod.ext rfl h1
    have hcomp : splitOnce comp '=' = ((splitOnce comp '=').1, Option.none) :=
      Prod.ext rfl h3
    have hpair : pairOf comp = .error "ValueError" := by
      rw [pairOf, hcomp]
    obtain ⟨e, he⟩ := pairsOf_error_of_mem h2 hpair
    exact ⟨e, by rw [extract_query, hs]; simp [he, Bind.bind, Except.bind]⟩
  · intro l m s e hl hm hq
    simp [extract_until, pyGet, hl, hm, hq, Bind.bind, Except.bind]

/-- Witness for C10 on the URL `"https://x?flag"`. -/
theorem extract_until_raises_on_malformed_query_witness :
    (∃ e, extract_query "https://x?flag" = .error e)
    ∧ extract_until (pyDict [("paging",
        pyDict [("next", .str "https://x?flag")])]) = .error "ValueError" :=
  ⟨extract_until_raises_on_malformed_query.1 "https://x?flag" "flag" "flag"
      (by decide) (by decide) (by decide),
   extract_until_raises_on_malformed_query.2.2⟩

/-! ### Unfolding lemmas for the pagination loop -/

theorem paginateAux_nil_queue (ep ck : String) (ext : PyVal → Except String PyVal)
    (ramp : PyVal → PyVal) (responses : List HttpResp) (h : Heap) :
    paginateAux ep ck ext ramp responses [] h =
      { pages := [], requests := 0,
        outcome := .raised "IndexError: pop from an empty deque",
        popFailed := true, finalHeap := h, finalQueue := [] } := by
  rw [paginateAux]

theorem paginateAux_starved (ep ck : String) (ext : PyVal → Except String PyVal)
    (ramp : PyVal → PyVal) (tok : PyVal) (restq : List PyVal) (h : Heap) :
    paginateAux ep ck ext ramp [] (tok :: restq) h =
      { pages := [], requests := 1, outcome := .starved, popFailed := false,
        finalHeap := h.write .engine (dictSet (h.read .engine) "access_token" tok),
        finalQueue := tok :: restq } := by
  rw [paginateAux]

theorem paginateAux_nil_responses (ep ck : String) (ext : PyVal → Except String PyVal)
    (ramp : PyVal → PyVal) (q : List PyVal) (h : Heap) (hq : q ≠ []) :
    (paginateAux ep ck ext ramp [] q h).requests = 1
    ∧ (paginateAux ep ck ext ramp [] q h).outcome = .starved
    ∧ (paginateAux ep ck ext ramp [] q h).pages = []
    ∧ (paginateAux ep ck ext ramp [] q h).finalQueue = q := by
  cases q with
  | nil => exact absurd rfl hq
  | cons a t =>
      rw [paginateAux_starved]
      exact ⟨rfl, rfl, rfl, rfl⟩

theorem paginateAux_step_stop (ep ck : String) (ext : PyVal → Except String PyVal)
    (ramp : PyVal → PyVal) (r : HttpResp) (rs : List HttpResp)
    (tok : PyVal) (restq : List PyVal) (h : Heap) (cursor data : PyVal)
    (hext : ext (parse_response r) = .ok cursor)
    (hdata : pyGet (parse_response r) "data" (.list .nil) = .ok data)
    (hcond : continueCond ck (dictSet (h.read .engine) "access_token" tok) cursor data = false) :
    paginateAux ep ck ext ramp (r :: rs) (tok :: restq) h =
      { pages := [(⟨parse_response r, r.status, ep, .engine⟩,
                   h.write .engine (dictSet (h.read .engine) "access_token" tok))],
        requests := 1, outcome := .done, popFailed := false,
        finalHeap := h.write .engine (dictSet (h.read .engine) "access_token" tok),
        finalQueue := restq } := by
  conv_lhs => rw [paginateAux]
  simp only [Heap.read_write_engine, hext, hdata, hcond, Bool.false_eq_true, if_false]

theorem paginateAux_step_continue (ep ck : String) (ext : PyVal → Except String PyVal)
    (ramp : PyVal → PyVal) (r : HttpResp) (rs : List HttpResp)
    (tok : PyVal) (restq : List PyVal) (h : Heap) (cursor data : PyVal)
    (hext : ext (parse_response r) = .ok cursor)
    (hdata : pyGet (parse_response r) "data" (.list .nil) = .ok data)
    (hcond : continueCond ck (dictSet (h.read .engine) "access_token" tok) cursor data = true) :
    paginateAux ep ck ext ramp (r :: rs) (tok :: restq) h =
      (let params1 := dictSet (h.read .engine) "access_token" tok
       let h1 := h.write .engine params1
       let params2 := dictSet params1 ck cursor
       let params3 :=
         match dictGet params2 "limit" with
         | some lv => dictSet params2 "limit" (ramp lv)
         | Option.none => params2
       let res := paginateAux ep ck ext ramp rs (restq ++ [tok]) (h1.write .engine params3)
       { pages := (⟨parse_response r, r.status, ep, .engine⟩, h1) :: res.pages,
         requests := res.requests + 1, outcome := res.outcome, popFailed := res.popFailed,
         finalHeap := res.finalHeap, finalQueue := res.finalQueue }) := by
  conv_lhs => rw [paginateAux]
  simp only [Heap.read_write_engine, hext, hdata, hcond, if_true, dictGet_dictSet_self,
    Option.getD_some]

theorem paginateAux_step_extract_error (ep ck : String) (ext : PyVal → Except String PyVal)
    (ramp : PyVal → PyVal) (r : HttpResp) (rs : List HttpResp)
    (tok : PyVal) (restq : List PyVal) (h : Heap) (msg : String)
    (hext : ext (parse_response r) = .error msg) :
    paginateAux ep ck ext ramp (r :: rs) (tok :: restq) h =
      { pages := [(⟨parse_response r, r.status, ep, .engine⟩,
                   h.write .engine (dictSet (h.read .engine) "access_token" tok))],
        requests := 1, outcome := .raised msg, popFailed := false,
        finalHeap := h.write .engine (dictSet (h.read .engine) "access_token" tok),
        finalQueue := restq } := by
  conv_lhs => rw [paginateAux]
  simp only [hext]

theorem paginateAux_step_data_error (ep ck : String) (ext : PyVal → Except String PyVal)
    (ramp : PyVal → PyVal) (r : HttpResp) (rs : List HttpResp)
    (tok : PyVal) (restq : List PyVal) (h : Heap) (cursor : PyVal) (msg : String)
    (hext : ext (parse_response r) = .ok cursor)
    (hdata : pyGet (parse_response r) "data" (.list .nil) = .error msg) :
    paginateAux ep ck ext ramp (r :: rs) (tok :: restq) h =
      { pages := [(⟨parse_response r, r.status, ep, .engine⟩,
                   h.write .engine (dictSet (h.read .engine) "access_token" tok))],
        requests := 1, outcome := .raised msg, popFailed := false,
        finalHeap := h.write .engine (dictSet (h.read .engine) "access_token" tok),
        finalQueue := restq } := by
  conv_lhs => rw [paginateAux]
  simp only [hext, hdata]

theorem paginateAux_first_page (ep ck : String) (ext : PyVal → Except String PyVal)
    (ramp : PyVal → PyVal) (r : HttpResp) (rs : List HttpResp)
    (tok : PyVal) (restq : List PyVal) (h : Heap) :
    ∃ rest, (paginateAux ep ck ext ramp (r :: rs) (tok :: restq) h).pages
      = (⟨parse_response r, r.status, ep, .engine⟩,
         h.write .engine (dictSet (h.read .engine) "access_token" tok)) :: rest := by
  rcases hE : ext (parse_response r) with msg | cursor
  · exact ⟨[], by rw [paginateAux_step_extract_error ep ck ext ramp r rs tok restq h msg hE]⟩
  · rcases hD : pyGet (parse_response r) "data" (.list .nil) with msg | data
    · exact ⟨[], by
        rw [paginateAux_step_data_error ep ck ext ramp r rs tok restq h cursor msg hE hD]⟩
    · by_cases hc : continueCond ck (dictSet (h.read .engine) "access_token" tok) cursor data
      · rw [paginateAux_step_continue ep ck ext ramp r rs tok restq h cursor data hE hD hc]
        exact ⟨_, rfl⟩
      · exact ⟨[], by
          rw [paginateAux_step_stop ep ck ext ramp r rs tok restq h cursor data hE hD
            (by simpa using hc)]⟩

theorem paginateAux_invariants (ep ck : String) (ext : PyVal → Except String PyVal)
    (ramp : PyVal → PyVal) :
    ∀ (responses : List HttpResp) (q : List PyVal) (h : Heap),
      (q ≠ [] → (paginateAux ep ck ext ramp responses q h).popFailed = false)
      ∧ (paginateAux ep ck ext ramp responses q h).finalHeap.callerParams = h.callerParams
      ∧ ∀ p ∈ (paginateAux ep ck ext ramp responses q h).pages,
          p.1.parameters = Ref.engine ∧ (p.2).callerParams = h.callerParams := by
  intro responses
  induction responses with
  | nil =>
      intro q h
      cases q with
      | nil => simp [paginateAux_nil_queue]
      | cons a t => simp [paginateAux_starved]
  | cons r rs ih =>
      intro q h
      cases q with
      | nil => simp [paginateAux_nil_queue]
      | cons tok restq =>
          rcases hE : ext (parse_response r) with msg | cursor
          · rw [paginateAux_step_extract_error ep ck ext ramp r rs tok restq h msg hE]
            simp
          · rcases hD : pyGet (parse_response r) "data" (.list .nil) with msg | data
            · rw [paginateAux_step_data_error ep ck ext ramp r rs tok restq h cursor msg hE hD]
              simp
            · by_cases hc : continueCond ck (dictSet (h.read .engine) "access_token" tok) cursor data
              · rw [paginateAux_step_continue ep ck ext ramp r rs tok restq h cursor data hE hD hc]
                obtain ⟨i1, i2, i3⟩ := ih (restq ++ [tok])
                  ((h.write .engine (dictSet (h.read .engine) "access_token" tok)).write .engine
                    (let params2 := dictSet (dictSet (h.read .engine) "access_token" tok) ck cursor
                     match dictGet params2 "limit" with
                     | some lv => dictSet params2 "limit" (ramp lv)
                     | Option.none => params2))
                refine ⟨fun _ => ?_, ?_, ?_⟩
                · simpa using i1 (by simp)
                · simpa using i2
                · intro p hp
                  rcases List.mem_cons.mp (by simpa using hp) with rfl | hp'
                  · exact ⟨rfl, rfl⟩
                  · simpa using i3 p hp'
              · rw [paginateAux_step_stop ep ck ext ramp r rs tok restq h cursor data hE hD
                  (by simpa using hc)]
                simp

/-! ### C1 — the continuation test -/

/-- C1: from a state with at least one credential, a run yields the
current page and issues exactly one further request precisely when the
continuation test (`data` truthy, extracted cursor truthy, and cursor
different from the value stored under the cursor key) passes; in every
other case the generator ends after the current page. -/
theorem paginate_one_more_request_iff (ep ck : String) (ext : PyVal → Except String PyVal)
    (ramp : PyVal → PyVal) (tok : PyVal) (restq : List PyVal) (r : HttpResp) (h : Heap)
    (cursor data : PyVal)
    (hext : ext (parse_response r) = .ok cursor)
    (hdata : pyGet (parse_response r) "data" (.list .nil) = .ok data) :
    (paginateAux ep ck ext ramp [r] (tok :: restq) h).pages.length = 1
    ∧ ((paginateAux ep ck ext ramp [r] (tok :: restq) h).requests = 2
        ↔ continueCond ck (dictSet (h.read .engine) "access_token" tok) cursor data = true)
    ∧ ((paginateAux ep ck ext ramp [r] (tok :: restq) h).outcome = .done
        ↔ continueCond ck (dictSet (h.read .engine) "access_token" tok) cursor data = false) := by
  by_cases hc : continueCond ck (dictSet (h.read .engine) "access_token" tok) cursor data
  · rw [paginateAux_step_continue ep ck ext ramp r [] tok restq h cursor data hext hdata hc]
    obtain ⟨e1, e2, e3, e4⟩ :=
      paginateAux_nil_responses ep ck ext ramp (restq ++ [tok])
        ((h.write .engine (dictSet (h.read .engine) "access_token" tok)).write .engine
          (let params2 := dictSet (dictSet (h.read .engine) "access_token" tok) ck cursor
           match dictGet params2 "limit" with
           | some lv => dictSet params2 "limit" (ramp lv)
           | Option.none => params2)) (by simp)
    simp [e1, e2, e3, hc]
  · rw [paginateAux_step_stop ep ck ext ramp r [] tok restq h cursor data hext hdata
      (by simpa using hc)]
    simp [hc]

/-- Witness for C1 on a concrete page that passes the continuation
test. -/
theorem paginate_one_more_request_iff_witness :
    (paginateAux "u" "after" extract_after (fun v => v)
        [⟨200, some (sampleBody "c1"), "page1"⟩] [.str "A"] (Heap.mk .nil .nil)).pages.length = 1
    ∧ ((paginateAux "u" "after" extract_after (fun v => v)
        [⟨200, some (sampleBody "c1"), "page1"⟩] [.str "A"] (Heap.mk .nil .nil)).requests = 2
        ↔ continueCond "after"
            (dictSet ((Heap.mk .nil .nil).read .engine) "access_token" (.str "A"))
            (.str "c1") (.list (pyListOf [.int 1])) = true)
    ∧ ((paginateAux "u" "after" extract_after (fun v => v)
        [⟨200, some (sampleBody "c1"), "page1"⟩] [.str "A"] (Heap.mk .nil .nil)).outcome = .done
        ↔ continueCond "after"
            (dictSet ((Heap.mk .nil .nil).read .engine) "access_token" (.str "A"))
            (.str "c1") (.list (pyListOf [.int 1])) = false) :=
  paginate_one_more_request_iff "u" "after" extract_after (fun v => v) (.str "A") []
    ⟨200, some (sampleBody "c1"), "page1"⟩ (Heap.mk .nil .nil) (.str "c1")
    (.list (pyListOf [.int 1])) (by decide) (by decide)

/-! ### C3 — credential round-robin -/

/-- C3: the credential queue is FIFO: a continuing cycle pops the front
credential and pushes that same credential to the back (the queue is
rotated by one), a stopping cycle leaves the popped credential out; with
credentials `A, B` over a three-page script the tokens used are
`A, B, A`. -/
theorem credential_rotation_round_robin :
    (∀ (ep ck : String) (ext : PyVal → Except String PyVal) (ramp : PyVal → PyVal)
        (tok : PyVal) (restq : List PyVal) (r : HttpResp) (h : Heap) (cursor data : PyVal),
        ext (parse_response r) = .ok cursor →
        pyGet (parse_response r) "data" (.list .nil) = .ok data →
        (continueCond ck (dictSet (h.read .engine) "access_token" tok) cursor data = true →
          (paginateAux ep ck ext ramp [r] (tok :: restq) h).finalQueue = (tok :: restq).rotate 1)
        ∧ (continueCond ck (dictSet (h.read .engine) "access_token" tok) cursor data = false →
          (paginateAux ep ck ext ramp [r] (tok :: restq) h).finalQueue = restq))
    ∧ twoTokenRun.pages.map (fun p => dictGet (p.2.read p.1.parameters) "access_token")
        = [some (.str "A"), some (.str "B"), some (.str "A")]
    ∧ twoTokenRun.requests = 3 ∧ twoTokenRun.outcome = .done := by
  refine ⟨?_, by decide, by decide, by decide⟩
  intro ep ck ext ramp tok restq r h cursor data hext hdata
  constructor
  · intro hc
    rw [paginateAux_step_continue ep ck ext ramp r [] tok restq h cursor data hext hdata hc]
    obtain ⟨e1, e2, e3, e4⟩ :=
      paginateAux_nil_responses ep ck ext ramp (restq ++ [tok])
        ((h.write .engine (dictSet (h.read .engine) "access_token" tok)).write .engine
          (let params2 := dictSet (dictSet (h.read .engine) "access_token" tok) ck cursor
           match dictGet params2 "limit" with
           | some lv => dictSet params2 "limit" (ramp lv)
           | Option.none => params2)) (by simp)
    simp [e4, List.rotate_cons_succ]
  · intro hc
    rw [paginateAux_step_stop ep ck ext ramp r [] tok restq h cursor data hext hdata hc]

/-- Witness for C3: one continuing cycle rotates `[A, B]` to `[B, A]`. -/
theorem credential_rotation_round_robin_witness :
    (paginateAux "u" "after" extract_after (fun v => v)
        [⟨200, some (sampleBody "c1"), "page1"⟩] [.str "A", .str "B"]
        (Heap.mk .nil .nil)).finalQueue
      = ([PyVal.str "A", PyVal.str "B"] : List PyVal).rotate 1 :=
  (credential_rotation_round_robin.1 "u" "after" extract_after (fun v => v) (.str "A")
      [.str "B"] ⟨200, some (sampleBody "c1"), "page1"⟩ (Heap.mk .nil .nil) (.str "c1")
      (.list (pyListOf [.int 1])) (by decide) (by decide)).1 (by decide)

/-! ### C7 — non-JSON bodies become error pages -/

/-- C7: when the response body fails to decode, the engine substitutes
`dict(error=<raw text>)` and still yields a page envelope with that
content and the real HTTP status code; when decoding succeeds the
decoded body is used unchanged. -/
theorem decode_failure_yields_error_page (ep ck : String) (ext : PyVal → Except String PyVal)
    (ramp : PyVal → PyVal) (tok : PyVal) (restq : List PyVal)
    (r : HttpResp) (rs : List HttpResp) (h : Heap) :
    (r.jsonBody = Option.none →
      ∃ rest, (paginateAux ep ck ext ramp (r :: rs) (tok :: restq) h).pages
        = (⟨.dict (.cons "error" (.str r.text) .nil), r.status, ep, .engine⟩,
           h.write .engine (dictSet (h.read .engine) "access_token" tok)) :: rest)
    ∧ (∀ j, r.jsonBody = some j →
      ∃ rest, (paginateAux ep ck ext ramp (r :: rs) (tok :: restq) h).pages
        = (⟨j, r.status, ep, .engine⟩,
           h.write .engine (dictSet (h.read .engine) "access_token" tok)) :: rest) := by
  constructor
  · intro hb
    have hpr : parse_response r = .dict (.cons "error" (.str r.text) .nil) := by
      simp [parse_response, hb]
    obtain ⟨rest, hrest⟩ := paginateAux_first_page ep ck ext ramp r rs tok restq h
    exact ⟨rest, by rw [hrest, hpr]⟩
  · intro j hb
    have hpr : parse_response r = j := by
      simp [parse_response, hb]
    obtain ⟨rest, hrest⟩ := paginateAux_first_page ep ck ext ramp r rs tok restq h
    exact ⟨rest, by rw [hrest, hpr]⟩

/-- Witness for C7 on a 429 response with a non-JSON body. -/
theorem decode_failure_yields_error_page_witness :
    ∃ rest, (paginateAux "u" "after" extract_after (fun v => v)
        [⟨429, Option.none, "rate limited"⟩] [.str "A"] (Heap.mk .nil .nil)).pages
      = (⟨.dict (.cons "error" (.str "rate limited") .nil), 429, "u", .engine⟩,
         (Heap.mk .nil .nil).write .engine
           (dictSet ((Heap.mk .nil .nil).read .engine) "access_token" (.str "A"))) :: rest :=
  (decode_failure_yields_error_page "u" "after" extract_after (fun v => v) (.str "A") []
    ⟨429, Option.none, "rate limited"⟩ [] (Heap.mk .nil .nil)).1 rfl

/-! ### C8 — the credential queue is never empty at a request -/

/-- C8: a run seeded with at least one credential never pops from an
empty deque (each continuing cycle pops one credential and pushes one
back, so the queue size at a request is preserved); a run seeded with
zero credentials fails fast with IndexError before any request, yielding
nothing. -/
theorem credential_queue_invariant :
    (∀ (ep ck : String) (ext : PyVal → Except String PyVal) (ramp : PyVal → PyVal)
        (responses : List HttpResp) (q : List PyVal) (h : Heap),
        q ≠ [] → (paginateAux ep ck ext ramp responses q h).popFailed = false)
    ∧ (∀ (ep ck : String) (ext : PyVal → Except String PyVal) (ramp : PyVal → PyVal)
        (responses : List HttpResp) (h : Heap),
        paginateAux ep ck ext ramp responses [] h =
          { pages := [], requests := 0,
            outcome := .raised "IndexError: pop from an empty deque",
            popFailed := true, finalHeap := h, finalQueue := [] })
    ∧ (∀ (ep ck : String) (ext : PyVal → Except String PyVal) (ramp : PyVal → PyVal)
        (tok : PyVal) (restq : List PyVal) (r : HttpResp) (h : Heap) (cursor data : PyVal),
        ext (parse_response r) = .ok cursor →
        pyGet (parse_response r) "data" (.list .nil) = .ok data →
        continueCond ck (dictSet (h.read .engine) "access_token" tok) cursor data = true →
        ((paginateAux ep ck ext ramp [r] (tok :: restq) h).finalQueue).length
          = (tok :: restq).length) := by
  refine ⟨?_, ?_, ?_⟩
  · intro ep ck ext ramp responses q h hq
    exact (paginateAux_invariants ep ck ext ramp responses q h).1 hq
  · intro ep ck ext ramp responses h
    exact paginateAux_nil_queue ep ck ext ramp responses h
  · intro ep ck ext ramp tok restq r h cursor data hext hdata hc
    rw [paginateAux_step_continue ep ck ext ramp r [] tok restq h cursor data hext hdata hc]
    obtain ⟨e1, e2, e3, e4⟩ :=
      paginateAux_nil_responses ep ck ext ramp (restq ++ [tok])
        ((h.write .engine (dictSet (h.read .engine) "access_token" tok)).write .engine
          (let params2 := dictSet (dictSet (h.read .engine) "access_token" tok) ck cursor
           match dictGet params2 "limit" with
           | some lv => dictSet params2 "limit" (ramp lv)
           | Option.none => params2)) (by simp)
    simp [e4]

/-- Witness for C8 on the fixture run and on an empty credential
sequence. -/
theorem credential_queue_invariant_witness :
    (paginateAux "https://graph.facebook.com/v2.2/42/likes" "after" extract_after
        (fun v => v) twoTokenScript [.str "A", .str "B"]
        (Heap.mk startParams startParams)).popFailed = false
    ∧ paginateAux "u" "after" extract_after (fun v => v) twoTokenScript [] (Heap.mk .nil .nil)
        = { pages := [], requests := 0,
            outcome := .raised "IndexError: pop from an empty deque",
            popFailed := true, finalHeap := Heap.mk .nil .nil, finalQueue := [] } :=
  ⟨credential_queue_invariant.1 "https://graph.facebook.com/v2.2/42/likes" "after"
      extract_after (fun v => v) twoTokenScript [.str "A", .str "B"]
      (Heap.mk startParams startParams) (by decide),
   credential_queue_invariant.2.1 "u" "after" extract_after (fun v => v) twoTokenScript
      (Heap.mk .nil .nil)⟩

/-! ### C9 — the caller's parameter dict is never written -/

/-- C9: `paginate` works on the private copy `dict(parameters)`; the
caller-supplied mapping is unchanged at every yield and at the end of
every run. -/
theorem caller_parameters_unchanged (ep : String) (pars : PyFields) (toks : List PyVal)
    (ck : String) (ext : PyVal → Except String PyVal) (ramp : PyVal → PyVal)
    (responses : List HttpResp) :
    (paginate ep pars toks ck ext ramp responses).finalHeap.callerParams = pars
    ∧ ∀ p ∈ (paginate ep pars toks ck ext ramp responses).pages,
        (p.2).callerParams = pars := by
  obtain ⟨_, i2, i3⟩ := paginateAux_invariants ep ck ext ramp responses toks (Heap.mk pars pars)
  exact ⟨i2, fun p hp => (i3 p hp).2⟩

/-- Witness for C9 at the first page of the fixture run. -/
theorem caller_parameters_unchanged_witness :
    (pageAt twoTokenRun 0).2.callerParams = startParams :=
  (caller_parameters_unchanged "https://graph.facebook.com/v2.2/42/likes" startParams
      [.str "A", .str "B"] "after" extract_after (fun v => v) twoTokenScript).2
    (pageAt twoTokenRun 0) (by decide)

/-! ### C2 — the yielded envelope's parameters are a live reference -/

/-- C2 counterexample: the claim that later iterations leave an already
yielded envelope's `parameters` unchanged fails on the fixture run: the
parameters of the first envelope, observed through its reference at the
time the second page is yielded, differ from what they were at its own
yield (the cursor key and access token have been overwritten). -/
theorem envelope_parameters_mutated_counterexample :
    twoTokenRun.pages.length = 3
    ∧ (pageAt twoTokenRun 1).2.read (pageAt twoTokenRun 0).1.parameters
        ≠ (pageAt twoTokenRun 0).2.read (pageAt twoTokenRun 0).1.parameters := by
  decide

/-- C2 amended: the envelope's `parameters` member is a live reference
to the engine's single `params` object — every yielded envelope of a run
references that one object, so the writes of subsequent iterations are
visible through envelopes already yielded (shown concretely on the
fixture run). -/
theorem envelope_parameters_live_reference :
    (∀ (ep ck : String) (ext : PyVal → Except String PyVal) (ramp : PyVal → PyVal)
        (responses : List HttpResp) (q : List PyVal) (h : Heap),
        ∀ p ∈ (paginateAux ep ck ext ramp responses q h).pages,
          p.1.parameters = Ref.engine)
    ∧ (pageAt twoTokenRun 0).1.parameters = (pageAt twoTokenRun 1).1.parameters
    ∧ (pageAt twoTokenRun 1).2.read (pageAt twoTokenRun 0).1.parameters
        = (pageAt twoTokenRun 1).2.read (pageAt twoTokenRun 1).1.parameters
    ∧ (pageAt twoTokenRun 1).2.read (pageAt twoTokenRun 0).1.parameters
        ≠ (pageAt twoTokenRun 0).2.read (pageAt twoTokenRun 0).1.parameters := by
  refine ⟨?_, by decide, by decide, by decide⟩
  intro ep ck ext ramp responses q h p hp
  exact ((paginateAux_invariants ep ck ext ramp responses q h).2.2 p hp).1

/-- Witness for the amended C2 at the first page of the fixture run. -/
theorem envelope_parameters_live_reference_witness :
    (pageAt twoTokenRun 0).1.parameters = Ref.engine :=
  envelope_parameters_live_reference.1 "https://graph.facebook.com/v2.2/42/likes" "after"
    extract_after (fun v => v) twoTokenScript [.str "A", .str "B"]
    (Heap.mk startParams startParams) (pageAt twoTokenRun 0) (by decide)
